import Mathlib

/-!
Verification of the logical-type core of a columnar storage engine
(`dbms/src/DataTypes/IDataType.cpp`): stream naming for substream paths,
the domain decorator chain, text-serialization dispatch, the average
value-size hint estimator, and the default error-raising contracts.

External collaborators (`escapeForFileName`, `Nested::extractTableName`)
are taken as parameters; parts of the domain-chain behaviour that live
outside the translated file are modelled from the specification and
marked as such in their doc comments.
-/

namespace IDataTypeSpec

/-- The kinds of markers a substream path may contain
(`IDataType::Substream::Type`). -/
inductive SubstreamType where
  | NullMap
  | ArraySizes
  | ArrayElements
  | TupleElement
  | DictionaryKeys
deriving DecidableEq, Repr

/-- A single marker of a substream path (`IDataType::Substream`): a kind
plus, for `TupleElement`, the field name. -/
structure Substream where
  type : SubstreamType
  tuple_element_name : String := ""
deriving DecidableEq, Repr

/-- A substream path (`IDataType::SubstreamPath`), interpreted left to
right. -/
def SubstreamPath := List Substream

/-- One iteration of the loop body of `IDataType::getFileNameForStream`:
the accumulator carries the `stream_name` built so far and the current
`array_level`. -/
def streamStep (esc : String → String) (acc : String × Nat) (elem : Substream) :
    String × Nat :=
  match elem.type with
  | SubstreamType.NullMap => (acc.1 ++ ".null", acc.2)
  | SubstreamType.ArraySizes => (acc.1 ++ ".size" ++ toString acc.2, acc.2)
  | SubstreamType.ArrayElements => (acc.1, acc.2 + 1)
  | SubstreamType.TupleElement => (acc.1 ++ "%2E" ++ esc elem.tuple_element_name, acc.2)
  | SubstreamType.DictionaryKeys => (acc.1 ++ ".dict", acc.2)

/-- `IDataType::getFileNameForStream`, translated from the source.
The file-name escaping routine `esc` (`escapeForFileName`) and the nested
table-name extraction `extractTableName` (`Nested::extractTableName`) are
external to the translated file and passed as parameters. -/
def getFileNameForStream (esc : String → String) (extractTableName : String → String)
    (column_name : String) (path : List Substream) : String :=
  let nested_table_name := extractTableName column_name
  let is_sizes_of_nested_type : Bool :=
    match path with
    | [elem] => elem.type == SubstreamType.ArraySizes && nested_table_name != column_name
    | _ => false
  let init : String := esc (if is_sizes_of_nested_type then nested_table_name else column_name)
  (path.foldl (streamStep esc) (init, 0)).1

/-- The suffix grammar of the specification, written as a straightforward
recursion over the path with the running `array_level` counter as an
argument: `.null`, `.size<level>`, nothing (but a deeper level) for array
elements, `%2E<escaped field>`, `.dict`. -/
def streamSuffixes (esc : String → String) : List Substream → Nat → String
  | [], _ => ""
  | elem :: rest, level =>
    match elem.type with
    | SubstreamType.NullMap => ".null" ++ streamSuffixes esc rest level
    | SubstreamType.ArraySizes => ".size" ++ toString level ++ streamSuffixes esc rest level
    | SubstreamType.ArrayElements => streamSuffixes esc rest (level + 1)
    | SubstreamType.TupleElement =>
        "%2E" ++ esc elem.tuple_element_name ++ streamSuffixes esc rest level
    | SubstreamType.DictionaryKeys => ".dict" ++ streamSuffixes esc rest level

/-- The base identifier chosen by the resolver, per the specification: the
nested group name exactly when the path is a single `ArraySizes` marker
and the extracted table name differs from the column name, else the
column name. -/
def specBase (extractTableName : String → String)
    (column_name : String) (path : List Substream) : String :=
  match path with
  | [elem] =>
      if elem.type = SubstreamType.ArraySizes ∧ extractTableName column_name ≠ column_name
      then extractTableName column_name else column_name
  | _ => column_name

/-- `IDataType::updateAvgValueSizeHint`, translated from the source. The
column is represented by its row count (`column.size()`) and total byte
size (`column.byteSize()`); the `double` hint arithmetic is modelled with
exact rationals. -/
def updateAvgValueSizeHint (column_size byte_size : Nat) (avg_value_size_hint : ℚ) : ℚ :=
  if column_size > 10 then
    let current_avg_value_size : ℚ := (byte_size : ℚ) / (column_size : ℚ)
    if current_avg_value_size > avg_value_size_hint then
      min 1024 current_avg_value_size
    else if current_avg_value_size * 2 < avg_value_size_hint then
      (current_avg_value_size + avg_value_size_hint * 3) / 4
    else
      avg_value_size_hint
  else
    avg_value_size_hint

/-- Opaque bag of formatting options (`FormatSettings`), passed through
unchanged by the dispatch layer. -/
structure FormatSettings where
  flags : List String
deriving DecidableEq, Repr

/-- Opaque physical value container (`IColumn`); this core only queries
its row count and byte size. -/
structure Column where
  size : Nat
  byteSize : Nat
deriving DecidableEq, Repr

/-- Modelled from the spec: the optional custom text-serialization
capability a domain may offer (`IDataTypeDomainCustomSerialization`,
declared outside the translated file). One field per dispatch operation
the source delegates to it; serializers produce the bytes written to the
output buffer, deserializers consume an input-buffer string and yield the
updated column. -/
structure TextSerCapability where
  serializeTextEscaped : Column → Nat → FormatSettings → String
  deserializeTextEscaped : Column → String → FormatSettings → Column
  serializeTextQuoted : Column → Nat → FormatSettings → String
  deserializeTextQuoted : Column → String → FormatSettings → Column
  serializeTextCSV : Column → Nat → FormatSettings → String
  deserializeTextCSV : Column → String → FormatSettings → Column
  serializeText : Column → Nat → FormatSettings → String
  serializeTextJSON : Column → Nat → FormatSettings → String
  deserializeTextJSON : Column → String → FormatSettings → Column
  serializeTextXML : Column → Nat → FormatSettings → String

/-- Modelled from the spec: a domain decorator (`IDataTypeDomain`,
declared outside the translated file): a naming rule that composes over
the name it wraps, and an optional custom text-serialization
capability. -/
structure Domain where
  nameRule : String → String
  customSer : Option TextSerCapability

/-- Modelled from the spec: the singly-linked append-only chain of
domains. `head` is the most recently appended domain — the one the
dispatch facade consults — and `rest` holds the older domains, the
first-attached one last. -/
structure DomainChain where
  head : Domain
  rest : List Domain

/-- Modelled from the spec: `IDataTypeDomain::appendDomain` — the new
domain extends the chain and becomes its head. -/
def DomainChain.appendDomain (c : DomainChain) (d : Domain) : DomainChain :=
  ⟨d, c.head :: c.rest⟩

/-- Modelled from the spec: the composed display name of a domain chain
over the physical name it decorates: the first-attached domain is
innermost, the head's naming rule is applied outermost. -/
def DomainChain.composedName (c : DomainChain) (inner : String) : String :=
  c.head.nameRule (c.rest.foldr (fun d s => d.nameRule s) inner)

/-- The domains of a chain as a list, most recently appended first. -/
def DomainChain.toList (c : DomainChain) : List Domain :=
  c.head :: c.rest

/-- The physical-type hooks of `IDataType` that a concrete type supplies
(virtual methods implemented outside the translated file): the family
name and the type's own text (de)serializers. -/
structure PhysicalType where
  familyName : String
  serializeTextEscaped : Column → Nat → FormatSettings → String
  deserializeTextEscaped : Column → String → FormatSettings → Column
  serializeTextQuoted : Column → Nat → FormatSettings → String
  deserializeTextQuoted : Column → String → FormatSettings → Column
  serializeTextCSV : Column → Nat → FormatSettings → String
  deserializeTextCSV : Column → String → FormatSettings → Column
  serializeText : Column → Nat → FormatSettings → String
  serializeTextJSON : Column → Nat → FormatSettings → String
  deserializeTextJSON : Column → String → FormatSettings → Column
  serializeTextXML : Column → Nat → FormatSettings → String

/-- The state of an `IDataType` instance: the physical hooks and the
optional attached domain chain (the mutable `domain` member). -/
structure TypeState where
  phys : PhysicalType
  domain : Option DomainChain

/-- `IDataType::IDataType()`: a fresh type has no domain attached. -/
def TypeState.init (p : PhysicalType) : TypeState :=
  ⟨p, none⟩

/-- `IDataType::doGetName`, translated from the source: returns
`getFamilyName()`. -/
def doGetName (t : TypeState) : String :=
  t.phys.familyName

/-- `IDataType::getName`, translated from the source: the attached
domain's name when present, else `doGetName()`. -/
def getName (t : TypeState) : String :=
  match t.domain with
  | some c => c.composedName t.phys.familyName
  | none => doGetName t

/-- `IDataType::appendDomain`, translated from the source: set the domain
if none is attached, else ask the attached domain to append the new one
after itself. -/
def appendDomain (t : TypeState) (new_domain : Domain) : TypeState :=
  match t.domain with
  | none => { t with domain := some ⟨new_domain, []⟩ }
  | some c => { t with domain := some (c.appendDomain new_domain) }

/-- The capability check performed by every dispatch operation
(`dynamic_cast<const IDataTypeDomainCustomSerialization *>(domain.get())`):
the consulted domain is the chain head; yields its custom capability when
it offers one. -/
def domainCustomSer (t : TypeState) : Option TextSerCapability :=
  match t.domain with
  | some c => c.head.customSer
  | none => none

/-- `IDataType::serializeAsTextEscaped`, translated from the source. -/
def serializeAsTextEscaped (t : TypeState) (column : Column) (row_num : Nat)
    (settings : FormatSettings) : String :=
  match domainCustomSer t with
  | some ser_domain => ser_domain.serializeTextEscaped column row_num settings
  | none => t.phys.serializeTextEscaped column row_num settings

/-- `IDataType::deserializeAsTextEscaped`, translated from the source. -/
def deserializeAsTextEscaped (t : TypeState) (column : Column) (istr : String)
    (settings : FormatSettings) : Column :=
  match domainCustomSer t with
  | some ser_domain => ser_domain.deserializeTextEscaped column istr settings
  | none => t.phys.deserializeTextEscaped column istr settings

/-- `IDataType::serializeAsTextQuoted`, translated from the source. -/
def serializeAsTextQuoted (t : TypeState) (column : Column) (row_num : Nat)
    (settings : FormatSettings) : String :=
  match domainCustomSer t with
  | some ser_domain => ser_domain.serializeTextQuoted column row_num settings
  | none => t.phys.serializeTextQuoted column row_num settings

/-- `IDataType::deserializeAsTextQuoted`, translated from the source. -/
def deserializeAsTextQuoted (t : TypeState) (column : Column) (istr : String)
    (settings : FormatSettings) : Column :=
  match domainCustomSer t with
  | some ser_domain => ser_domain.deserializeTextQuoted column istr settings
  | none => t.phys.deserializeTextQuoted column istr settings

/-- `IDataType::serializeAsTextCSV`, translated from the source. -/
def serializeAsTextCSV (t : TypeState) (column : Column) (row_num : Nat)
    (settings : FormatSettings) : String :=
  match domainCustomSer t with
  | some ser_domain => ser_domain.serializeTextCSV column row_num settings
  | none => t.phys.serializeTextCSV column row_num settings

/-- `IDataType::deserializeAsTextCSV`, translated from the source. -/
def deserializeAsTextCSV (t : TypeState) (column : Column) (istr : String)
    (settings : FormatSettings) : Column :=
  match domainCustomSer t with
  | some ser_domain => ser_domain.deserializeTextCSV column istr settings
  | none => t.phys.deserializeTextCSV column istr settings

/-- `IDataType::serializeAsText`, translated from the source. -/
def serializeAsText (t : TypeState) (column : Column) (row_num : Nat)
    (settings : FormatSettings) : String :=
  match domainCustomSer t with
  | some ser_domain => ser_domain.serializeText column row_num settings
  | none => t.phys.serializeText column row_num settings

/-- `IDataType::serializeAsTextJSON`, translated from the source. -/
def serializeAsTextJSON (t : TypeState) (column : Column) (row_num : Nat)
    (settings : FormatSettings) : String :=
  match domainCustomSer t with
  | some ser_domain => ser_domain.serializeTextJSON column row_num settings
  | none => t.phys.serializeTextJSON column row_num settings

/-- `IDataType::deserializeAsTextJSON`, translated from the source. -/
def deserializeAsTextJSON (t : TypeState) (column : Column) (istr : String)
    (settings : FormatSettings) : Column :=
  match domainCustomSer t with
  | some ser_domain => ser_domain.deserializeTextJSON column istr settings
  | none => t.phys.deserializeTextJSON column istr settings

/-- `IDataType::serializeAsTextXML`, translated from the source. -/
def serializeAsTextXML (t : TypeState) (column : Column) (row_num : Nat)
    (settings : FormatSettings) : String :=
  match domainCustomSer t with
  | some ser_domain => ser_domain.serializeTextXML column row_num settings
  | none => t.phys.serializeTextXML column row_num settings

/-- The six text format families of the external interface. -/
inductive TextFormat where
  | escaped
  | quoted
  | csv
  | plain
  | json
  | xml
deriving DecidableEq, Repr, Fintype

/-- Direction of a text-format operation. -/
inductive TextDirection where
  | ser
  | deser
deriving DecidableEq, Repr, Fintype

/-- The (format family, direction) pairs for which the source defines a
dispatch operation (`serializeAsText*` / `deserializeAsText*`, lines
143–261 of `IDataType.cpp`), in source order. -/
def textDispatchOps : List (TextFormat × TextDirection) :=
  [(TextFormat.escaped, TextDirection.ser), (TextFormat.escaped, TextDirection.deser),
   (TextFormat.quoted, TextDirection.ser), (TextFormat.quoted, TextDirection.deser),
   (TextFormat.csv, TextDirection.ser), (TextFormat.csv, TextDirection.deser),
   (TextFormat.plain, TextDirection.ser),
   (TextFormat.json, TextDirection.ser), (TextFormat.json, TextDirection.deser),
   (TextFormat.xml, TextDirection.ser)]

/-- The error kinds raised by the default base operations
(`ErrorCodes::MULTIPLE_STREAMS_REQUIRED`, `ErrorCodes::LOGICAL_ERROR`,
`ErrorCodes::DATA_TYPE_CANNOT_BE_PROMOTED`). -/
inductive ErrorCode where
  | MULTIPLE_STREAMS_REQUIRED
  | LOGICAL_ERROR
  | DATA_TYPE_CANNOT_BE_PROMOTED
deriving DecidableEq, Repr

/-- An exception: an error kind plus its message. -/
def Err := ErrorCode × String

/-- `IDataType::promoteNumericType`, translated from the source: the base
contract always throws `DATA_TYPE_CANNOT_BE_PROMOTED`. -/
def promoteNumericType (t : TypeState) : Except Err TypeState :=
  Except.error (ErrorCode.DATA_TYPE_CANNOT_BE_PROMOTED,
    "Data type " ++ getName t ++ " can't be promoted.")

/-- `IDataType::serializeBinaryBulk`, translated from the source: the base
contract always throws `MULTIPLE_STREAMS_REQUIRED` and emits nothing. -/
def serializeBinaryBulk (t : TypeState) (column : Column) (offset limit : Nat) :
    Except Err String :=
  Except.error (ErrorCode.MULTIPLE_STREAMS_REQUIRED,
    "Data type " ++ getName t ++ " must be serialized with multiple streams")

/-- `IDataType::deserializeBinaryBulk`, translated from the source: the
base contract always throws `MULTIPLE_STREAMS_REQUIRED` and leaves the
column untouched. -/
def deserializeBinaryBulk (t : TypeState) (column : Column) (istr : String)
    (limit : Nat) (avg_value_size_hint : ℚ) : Except Err Column :=
  Except.error (ErrorCode.MULTIPLE_STREAMS_REQUIRED,
    "Data type " ++ getName t ++ " must be deserialized with multiple streams")

/-- `IDataType::getSizeOfValueInMemory`, translated from the source: the
base contract always throws `LOGICAL_ERROR`. -/
def getSizeOfValueInMemory (t : TypeState) : Except Err Nat :=
  Except.error (ErrorCode.LOGICAL_ERROR,
    "Value of type " ++ getName t ++ " in memory is not of fixed size.")

/-- The domains currently attached to a type, most recently appended
first; empty when no domain is attached. -/
def domainsOf (t : TypeState) : List Domain :=
  match t.domain with
  | some c => c.toList
  | none => []

/-- A sequence of successive `appendDomain` calls, in call order. -/
def attachAll (t : TypeState) (ds : List Domain) : TypeState :=
  ds.foldl appendDomain t

/-- A text serializer that always produces the given output; used to
instantiate concrete physical types and capabilities. -/
def constSerFn (out : String) : Column → Nat → FormatSettings → String :=
  fun _ _ _ => out

/-- A text deserializer that returns the column unchanged; used to
instantiate concrete physical types and capabilities. -/
def constDeserFn : Column → String → FormatSettings → Column :=
  fun c _ _ => c

/-- A concrete custom-serialization capability whose serializers all
produce the given output. -/
def sampleCap (out : String) : TextSerCapability :=
  ⟨constSerFn out, constDeserFn, constSerFn out, constDeserFn, constSerFn out,
   constDeserFn, constSerFn out, constSerFn out, constDeserFn, constSerFn out⟩

/-- A concrete physical type with the given family name whose own text
serializers all produce the given output. -/
def samplePhys (family out : String) : PhysicalType :=
  ⟨family, constSerFn out, constDeserFn, constSerFn out, constDeserFn, constSerFn out,
   constDeserFn, constSerFn out, constSerFn out, constDeserFn, constSerFn out⟩

/-- A concrete domain whose naming rule wraps the inner name as
`nm(inner)`. -/
def sampleDomain (nm : String) (cap : Option TextSerCapability) : Domain :=
  ⟨fun s => nm ++ "(" ++ s ++ ")", cap⟩

lemma foldl_step_append (esc : String → String) (path : List Substream) :
    ∀ (s : String) (n : Nat),
      (path.foldl (streamStep esc) (s, n)).1 = s ++ streamSuffixes esc path n := by
  induction path with
  | nil => intro s n; simp [streamSuffixes]
  | cons elem rest ih =>
      intro s n
      cases h : elem.type <;>
        simp [List.foldl_cons, streamStep, streamSuffixes, h, ih, String.append_assoc]

lemma getFileNameForStream_eq (esc extractTableName : String → String)
    (column_name : String) (path : List Substream) :
    getFileNameForStream esc extractTableName column_name path
      = esc (specBase extractTableName column_name path)
          ++ streamSuffixes esc path 0 := by
  unfold getFileNameForStream specBase
  rw [foldl_step_append]
  congr 2
  cases path with
  | nil => simp
  | cons elem rest =>
      cases rest with
      | nil =>
          by_cases h1 : elem.type = SubstreamType.ArraySizes <;>
            by_cases h2 : extractTableName column_name = column_name <;>
              simp [h1, h2, bne, beq_iff_eq]
      | cons b l => simp

/-- C1: for every column name and substream path, `getFileNameForStream`
returns the escaped base identifier followed, in path order, by exactly the
suffixes of the grammar: `.null` for NullMap, `.size` plus the current
array level for ArraySizes, nothing (but a deeper level afterwards) for
ArrayElements, `%2E` plus the escaped field name for TupleElement, and
`.dict` for DictionaryKeys, with the level counter starting at 0. An empty
path yields the bare base name, and name `x` with path
`[ArrayElements, ArraySizes]` yields `x.size1`. -/
theorem C1_stream_suffix_grammar (esc extractTableName : String → String)
    (column_name : String) (path : List Substream) :
    getFileNameForStream esc extractTableName column_name path
        = esc (specBase extractTableName column_name path) ++ streamSuffixes esc path 0
      ∧ getFileNameForStream esc extractTableName column_name []
        = esc column_name
      ∧ getFileNameForStream id id "x"
          [⟨SubstreamType.ArrayElements, ""⟩, ⟨SubstreamType.ArraySizes, ""⟩]
        = "x.size1" := by
  refine ⟨getFileNameForStream_eq esc extractTableName column_name path, ?_, ?_⟩
  · rw [getFileNameForStream_eq]
    simp [specBase, streamSuffixes]
  · rfl

/-- C2: `getFileNameForStream` uses the nested group (table) name as the
base identifier exactly when the path is a single `ArraySizes` marker and
the extracted nested table name differs from the column name; otherwise
the base is the column name itself. Name `x` in nested group `n` with path
`[ArraySizes]` yields `n.size0`. -/
theorem C2_nested_size_base (esc extractTableName : String → String)
    (column_name : String) (path : List Substream) :
    (∀ elem : Substream, path = [elem] → elem.type = SubstreamType.ArraySizes →
      extractTableName column_name ≠ column_name →
      getFileNameForStream esc extractTableName column_name path
        = esc (extractTableName column_name) ++ streamSuffixes esc path 0)
    ∧ ((¬ ∃ elem : Substream, path = [elem] ∧ elem.type = SubstreamType.ArraySizes
          ∧ extractTableName column_name ≠ column_name) →
      getFileNameForStream esc extractTableName column_name path
        = esc column_name ++ streamSuffixes esc path 0)
    ∧ getFileNameForStream id (fun s => if s = "x" then "n" else s) "x"
        [⟨SubstreamType.ArraySizes, ""⟩]
      = "n.size0" := by
  refine ⟨?_, ?_, ?_⟩
  · intro elem hp ht hne
    rw [getFileNameForStream_eq]
    subst hp
    simp [specBase, ht, hne]
  · intro hno
    rw [getFileNameForStream_eq]
    congr 2
    unfold specBase
    cases path with
    | nil => rfl
    | cons elem rest =>
        cases rest with
        | nil =>
            by_cases h1 : elem.type = SubstreamType.ArraySizes <;>
              by_cases h2 : extractTableName column_name = column_name <;>
                simp [h1, h2] <;> exact absurd ⟨elem, rfl, h1, h2⟩ hno
        | cons b l => rfl
  · rfl

/-- Closed instance of `C2_nested_size_base`: a single shared-size path on
a column of nested group `n` resolves to `n.size0`. -/
theorem C2_nested_size_base_witness :
    getFileNameForStream id (fun s => if s = "x" then "n" else s) "x"
        [⟨SubstreamType.ArraySizes, ""⟩]
      = (fun s => if s = "x" then "n" else s) "x"
          ++ streamSuffixes id [⟨SubstreamType.ArraySizes, ""⟩] 0 :=
  (C2_nested_size_base id (fun s => if s = "x" then "n" else s) "x"
      [⟨SubstreamType.ArraySizes, ""⟩]).1
    ⟨SubstreamType.ArraySizes, ""⟩ rfl rfl (by decide)

lemma getName_some (t : TypeState) (c : DomainChain) (hc : t.domain = some c) :
    getName t = c.composedName t.phys.familyName := by
  simp [getName, hc]

lemma appendDomain_phys (t : TypeState) (d : Domain) :
    (appendDomain t d).phys = t.phys := by
  cases h : t.domain <;> simp [appendDomain, h]

lemma appendDomain_domain (t : TypeState) (d : Domain) :
    (appendDomain t d).domain = some ⟨d, domainsOf t⟩ := by
  cases h : t.domain <;>
    simp [appendDomain, h, domainsOf, DomainChain.appendDomain, DomainChain.toList]

lemma domainsOf_appendDomain (t : TypeState) (d : Domain) :
    domainsOf (appendDomain t d) = d :: domainsOf t := by
  simp [domainsOf, appendDomain_domain, DomainChain.toList]

lemma attachAll_phys (ds : List Domain) : ∀ t : TypeState,
    (attachAll t ds).phys = t.phys := by
  induction ds with
  | nil => intro t; rfl
  | cons d rest ih =>
      intro t
      show (attachAll (appendDomain t d) rest).phys = t.phys
      rw [ih, appendDomain_phys]

lemma domainsOf_attachAll (ds : List Domain) : ∀ t : TypeState,
    domainsOf (attachAll t ds) = ds.reverse ++ domainsOf t := by
  induction ds with
  | nil => intro t; rfl
  | cons d rest ih =>
      intro t
      show domainsOf (attachAll (appendDomain t d) rest) = _
      rw [ih, domainsOf_appendDomain]
      simp

lemma attachAll_snoc (t : TypeState) (ds : List Domain) (d : Domain) :
    attachAll t (ds ++ [d]) = appendDomain (attachAll t ds) d := by
  simp [attachAll, List.foldl_append]

/-- C4: after any nonempty sequence of `appendDomain` calls, the chain
head — the domain consulted by `getName` and by the text-serialization
dispatch — is the most recently appended domain, and `getName` composes
the naming rules with the first-attached domain innermost and the head
outermost. -/
theorem C4_head_is_most_recent (p : PhysicalType) (ds : List Domain) (d : Domain) :
    ((attachAll (TypeState.init p) (ds ++ [d])).domain).map DomainChain.head = some d
    ∧ domainCustomSer (attachAll (TypeState.init p) (ds ++ [d])) = d.customSer
    ∧ getName (attachAll (TypeState.init p) (ds ++ [d]))
        = d.nameRule (ds.foldl (fun s dm => dm.nameRule s) p.familyName) := by
  refine ⟨?_, ?_, ?_⟩
  · rw [attachAll_snoc, appendDomain_domain]
    rfl
  · rw [attachAll_snoc]
    simp [domainCustomSer, appendDomain_domain]
  · rw [attachAll_snoc]
    have hphys : (appendDomain (attachAll (TypeState.init p) ds) d).phys
        = (TypeState.init p).phys := by
      rw [appendDomain_phys, attachAll_phys]
    rw [getName_some _ _ (appendDomain_domain (attachAll (TypeState.init p) ds) d),
      hphys, domainsOf_attachAll]
    simp [DomainChain.composedName, TypeState.init, domainsOf, List.foldr_reverse]

/-- C5: `getName` returns the attached domain's composed name when a
domain is attached, and the physical family name when none is. -/
theorem C5_getName_dispatch (t : TypeState) :
    (∀ c : DomainChain, t.domain = some c →
      getName t = c.composedName t.phys.familyName)
    ∧ (t.domain = none → getName t = t.phys.familyName) := by
  constructor
  · intro c hc
    simp [getName, hc]
  · intro h
    simp [getName, h, doGetName]

/-- Closed instance of `C5_getName_dispatch`: a domain-free type is named
by its family, and a decorated type by the domain's composed name. -/
theorem C5_getName_dispatch_witness :
    getName (TypeState.init (samplePhys "UInt32" "p")) = "UInt32"
    ∧ getName ⟨samplePhys "UInt32" "p", some ⟨sampleDomain "IPv4" none, []⟩⟩
      = DomainChain.composedName ⟨sampleDomain "IPv4" none, []⟩ "UInt32" :=
  ⟨(C5_getName_dispatch (TypeState.init (samplePhys "UInt32" "p"))).2 rfl,
   (C5_getName_dispatch ⟨samplePhys "UInt32" "p",
      some ⟨sampleDomain "IPv4" none, []⟩⟩).1 ⟨sampleDomain "IPv4" none, []⟩ rfl⟩

/-- C6: `appendDomain` is append-only — on a domain-free type it installs
the new domain as the chain head, otherwise it extends the existing chain
via the attached domain, and in both cases every previously attached
domain remains in the chain. -/
theorem C6_appendDomain_append_only (t : TypeState) (d : Domain) :
    domainsOf (appendDomain t d) = d :: domainsOf t
    ∧ List.IsSuffix (domainsOf t) (domainsOf (appendDomain t d))
    ∧ (t.domain = none → (appendDomain t d).domain = some ⟨d, []⟩)
    ∧ (∀ c : DomainChain, t.domain = some c →
        (appendDomain t d).domain = some (c.appendDomain d)) := by
  refine ⟨domainsOf_appendDomain t d, ⟨[d], (domainsOf_appendDomain t d).symm⟩, ?_, ?_⟩
  · intro h
    simp [appendDomain, h]
  · intro c hc
    simp [appendDomain, hc]

/-- Closed instance of `C6_appendDomain_append_only`: appending to a
domain-free type installs a singleton chain. -/
theorem C6_appendDomain_append_only_witness :
    (appendDomain (TypeState.init (samplePhys "F" "p")) (sampleDomain "D" none)).domain
      = some ⟨sampleDomain "D" none, []⟩ :=
  (C6_appendDomain_append_only (TypeState.init (samplePhys "F" "p"))
      (sampleDomain "D" none)).2.2.1 rfl

/-- C3 fails as stated: the source defines no deserialize dispatch for the
plain and XML families, so not every family has both directions. -/
theorem C3_text_dispatch_counterexample :
    ¬ ∀ f : TextFormat, (f, TextDirection.ser) ∈ textDispatchOps
        ∧ (f, TextDirection.deser) ∈ textDispatchOps := by
  decide

/-- C3 (amended): every family has a serialize dispatch; escaped, quoted,
CSV and JSON also have a deserialize dispatch, while plain and XML are
serialize-only. Every dispatch operation delegates to the attached
domain's custom-serialization capability when the consulted domain offers
one, and otherwise to the physical type's own text (de)serialization,
passing the column, buffer and format settings through unchanged. -/
theorem C3_text_dispatch_amended (t : TypeState) (cap : TextSerCapability)
    (column : Column) (row_num : Nat) (istr : String) (settings : FormatSettings) :
    (∀ f : TextFormat, (f, TextDirection.ser) ∈ textDispatchOps)
    ∧ (∀ f : TextFormat, f ≠ TextFormat.plain → f ≠ TextFormat.xml →
        (f, TextDirection.deser) ∈ textDispatchOps)
    ∧ (TextFormat.plain, TextDirection.deser) ∉ textDispatchOps
    ∧ (TextFormat.xml, TextDirection.deser) ∉ textDispatchOps
    ∧ (domainCustomSer t = some cap →
        serializeAsTextEscaped t column row_num settings
            = cap.serializeTextEscaped column row_num settings
        ∧ deserializeAsTextEscaped t column istr settings
            = cap.deserializeTextEscaped column istr settings
        ∧ serializeAsTextQuoted t column row_num settings
            = cap.serializeTextQuoted column row_num settings
        ∧ deserializeAsTextQuoted t column istr settings
            = cap.deserializeTextQuoted column istr settings
        ∧ serializeAsTextCSV t column row_num settings
            = cap.serializeTextCSV column row_num settings
        ∧ deserializeAsTextCSV t column istr settings
            = cap.deserializeTextCSV column istr settings
        ∧ serializeAsText t column row_num settings
            = cap.serializeText column row_num settings
        ∧ serializeAsTextJSON t column row_num settings
            = cap.serializeTextJSON column row_num settings
        ∧ deserializeAsTextJSON t column istr settings
            = cap.deserializeTextJSON column istr settings
        ∧ serializeAsTextXML t column row_num settings
            = cap.serializeTextXML column row_num settings)
    ∧ (domainCustomSer t = none →
        serializeAsTextEscaped t column row_num settings
            = t.phys.serializeTextEscaped column row_num settings
        ∧ deserializeAsTextEscaped t column istr settings
            = t.phys.deserializeTextEscaped column istr settings
        ∧ serializeAsTextQuoted t column row_num settings
            = t.phys.serializeTextQuoted column row_num settings
        ∧ deserializeAsTextQuoted t column istr settings
            = t.phys.deserializeTextQuoted column istr settings
        ∧ serializeAsTextCSV t column row_num settings
            = t.phys.serializeTextCSV column row_num settings
        ∧ deserializeAsTextCSV t column istr settings
            = t.phys.deserializeTextCSV column istr settings
        ∧ serializeAsText t column row_num settings
            = t.phys.serializeText column row_num settings
        ∧ serializeAsTextJSON t column row_num settings
            = t.phys.serializeTextJSON column row_num settings
        ∧ deserializeAsTextJSON t column istr settings
            = t.phys.deserializeTextJSON column istr settings
        ∧ serializeAsTextXML t column row_num settings
            = t.phys.serializeTextXML column row_num settings) := by
  refine ⟨by decide, by decide, by decide, by decide, ?_, ?_⟩ <;>
    · intro h
      simp [serializeAsTextEscaped, deserializeAsTextEscaped, serializeAsTextQuoted,
        deserializeAsTextQuoted, serializeAsTextCSV, deserializeAsTextCSV,
        serializeAsText, serializeAsTextJSON, deserializeAsTextJSON,
        serializeAsTextXML, h]

/-- Closed instance of `C3_text_dispatch_amended`: with a capability-bearing
domain attached, escaped serialization goes to the capability; without a
domain it goes to the physical type. -/
theorem C3_text_dispatch_amended_witness :
    serializeAsTextEscaped
        ⟨samplePhys "F" "p", some ⟨sampleDomain "D" (some (sampleCap "c")), []⟩⟩
        ⟨0, 0⟩ 0 ⟨[]⟩
      = (sampleCap "c").serializeTextEscaped ⟨0, 0⟩ 0 ⟨[]⟩
    ∧ serializeAsTextEscaped (TypeState.init (samplePhys "F" "p")) ⟨0, 0⟩ 0 ⟨[]⟩
      = (samplePhys "F" "p").serializeTextEscaped ⟨0, 0⟩ 0 ⟨[]⟩ :=
  ⟨((C3_text_dispatch_amended
      ⟨samplePhys "F" "p", some ⟨sampleDomain "D" (some (sampleCap "c")), []⟩⟩
      (sampleCap "c") ⟨0, 0⟩ 0 "" ⟨[]⟩).2.2.2.2.1 rfl).1,
   ((C3_text_dispatch_amended (TypeState.init (samplePhys "F" "p"))
      (sampleCap "c") ⟨0, 0⟩ 0 "" ⟨[]⟩).2.2.2.2.2 rfl).1⟩

/-- C7: the hint-update rule: batches of at most 10 rows leave the hint
unchanged; otherwise with `avg = bytes / rows`, a larger average sets the
hint to `min(avg, 1024)`, an average whose double is below the hint decays
it to `(avg + 3·hint) / 4`, and anything else leaves it unchanged. -/
theorem C7_update_rule (n b : Nat) (h : ℚ) :
    (n ≤ 10 → updateAvgValueSizeHint n b h = h)
    ∧ (10 < n →
        ((b : ℚ) / (n : ℚ) > h →
          updateAvgValueSizeHint n b h = min ((b : ℚ) / (n : ℚ)) 1024)
        ∧ (¬ (b : ℚ) / (n : ℚ) > h → (b : ℚ) / (n : ℚ) * 2 < h →
          updateAvgValueSizeHint n b h = ((b : ℚ) / (n : ℚ) + h * 3) / 4)
        ∧ (¬ (b : ℚ) / (n : ℚ) > h → ¬ (b : ℚ) / (n : ℚ) * 2 < h →
          updateAvgValueSizeHint n b h = h)) := by
  refine ⟨fun hle => ?_, fun hlt => ⟨fun hg => ?_, fun hng hd => ?_, fun hng hnd => ?_⟩⟩ <;>
    · simp only [updateAvgValueSizeHint]
      split_ifs <;> first | rfl | omega | linarith | rw [min_comm]

/-- Closed instance of `C7_update_rule`: a 20-row batch of 40000 bytes
drives a hint of 1 to `min(2000, 1024)`. -/
theorem C7_update_rule_witness :
    updateAvgValueSizeHint 20 40000 1 = min ((40000 : ℚ) / (20 : ℚ)) 1024 :=
  ((C7_update_rule 20 40000 1).2 (by norm_num)).1 (by norm_num)

lemma hint_traj (k : Nat) :
    (updateAvgValueSizeHint 11 11)^[k] 4
      ∈ ([4, 13/4, 43/16, 145/64, 499/256] : List ℚ) := by
  induction k with
  | zero => simp
  | succ m ih =>
      rw [Function.iterate_succ_apply']
      simp only [List.mem_cons, List.mem_singleton, List.not_mem_nil, or_false] at ih
      rcases ih with h | h | h | h | h <;> rw [h] <;>
        norm_num [updateAvgValueSizeHint]

/-- C8 fails as stated: with constant per-value size 1 (11-row, 11-byte
batches) and initial hint 4, the hint freezes at 499/256 once it drops
below twice the average, so no number of updates ever brings it to
`min(1, 1024) = 1`. -/
theorem C8_convergence_counterexample :
    ¬ ∃ k : Nat, (updateAvgValueSizeHint 11 11)^[k] 4 = min (1 : ℚ) 1024 := by
  rintro ⟨k, hk⟩
  have h := hint_traj k
  rw [hk] at h
  norm_num at h

/-- C8 (amended): batches of at most 10 rows never change the hint. For
every batch of more than 10 rows with constant per-value byte size `s`
(row count `m`, byte size `m·s`): a hint below the average is set to
`min(s, 1024)` in a single update, and `min(s, 1024)` is a fixed point of
further updates; but a hint at or above the average never drops below
`s`, and it stops changing as soon as it is below `2·s` — so a hint
starting above the average need never reach `min(s, 1024)`. -/
theorem C8_convergence_amended (s n b m : Nat) (h : ℚ) :
    (n ≤ 10 → updateAvgValueSizeHint n b h = h)
    ∧ (10 < m → h < (s : ℚ) →
        updateAvgValueSizeHint m (m * s) h = min ((s : ℚ)) 1024)
    ∧ (10 < m →
        updateAvgValueSizeHint m (m * s) (min ((s : ℚ)) 1024) = min ((s : ℚ)) 1024)
    ∧ (10 < m → (s : ℚ) ≤ h →
        (s : ℚ) ≤ updateAvgValueSizeHint m (m * s) h)
    ∧ (10 < m → (s : ℚ) ≤ h → h < 2 * (s : ℚ) →
        updateAvgValueSizeHint m (m * s) h = h) := by
  have hs0 : (0 : ℚ) ≤ (s : ℚ) := Nat.cast_nonneg s
  have havg : 10 < m → ((m * s : ℕ) : ℚ) / ((m : ℕ) : ℚ) = (s : ℚ) := by
    intro hm
    push_cast
    exact mul_div_cancel_left₀ _ (Nat.cast_ne_zero.mpr (by omega))
  refine ⟨fun hle => ?_, fun hm hlt => ?_, fun hm => ?_, fun hm hge => ?_,
    fun hm hge hlt2 => ?_⟩
  · simp only [updateAvgValueSizeHint]
    rw [if_neg (by omega)]
  · have ha := havg hm
    simp only [updateAvgValueSizeHint]
    split_ifs <;> (try simp only [ha] at *) <;>
      first
        | rfl
        | omega
        | linarith [min_le_left ((s : ℚ)) 1024]
        | rw [min_comm]
  · have ha := havg hm
    simp only [updateAvgValueSizeHint]
    split_ifs <;> (try simp only [ha] at *) <;>
      first
        | rfl
        | omega
        | linarith [min_le_left ((s : ℚ)) 1024]
        | rw [min_comm]
  · have ha := havg hm
    simp only [updateAvgValueSizeHint]
    split_ifs <;> (try simp only [ha] at *) <;>
      first
        | rfl
        | omega
        | linarith [min_le_left ((s : ℚ)) 1024]
        | rw [min_comm]
  · have ha := havg hm
    simp only [updateAvgValueSizeHint]
    split_ifs <;> (try simp only [ha] at *) <;>
      first
        | rfl
        | omega
        | linarith [min_le_left ((s : ℚ)) 1024]
        | rw [min_comm]

/-- Closed instance of `C8_convergence_amended`: a 5-row batch never moves
the hint, and a hint of 1 under 12-row batches of 2-byte values jumps to
`min(2, 1024)` in one update. -/
theorem C8_convergence_amended_witness :
    updateAvgValueSizeHint 5 0 4 = 4
    ∧ updateAvgValueSizeHint 12 (12 * 2) 1 = min (((2 : ℕ) : ℚ)) 1024 :=
  ⟨(C8_convergence_amended 1 5 0 12 4).1 (by norm_num),
   (C8_convergence_amended 2 5 0 12 1).2.1 (by norm_num) (by norm_num)⟩

/-- C10: on the grow branch (more than 10 rows, average above the hint)
the updated hint never exceeds 1024; in particular a hint above 1024 is
pulled down to exactly 1024, so the grow branch can decrease the hint. -/
theorem C10_grow_branch_cap (n b : Nat) (h : ℚ) (hn : 10 < n)
    (havg : h < (b : ℚ) / (n : ℚ)) :
    updateAvgValueSizeHint n b h ≤ 1024
    ∧ (1024 < h → updateAvgValueSizeHint n b h = 1024
        ∧ updateAvgValueSizeHint n b h < h) := by
  simp only [updateAvgValueSizeHint]
  split_ifs with h1 <;>
    first
      | exact absurd hn (by assumption)
      | exact absurd havg (by assumption)
      | exact ⟨min_le_left _ _,
          fun hbig => ⟨min_eq_left (by linarith),
            lt_of_le_of_lt (min_le_left _ _) hbig⟩⟩

/-- Closed instance of `C10_grow_branch_cap`: an 11-row batch averaging
2048 bytes per value pulls a hint of 2000 down to 1024. -/
theorem C10_grow_branch_cap_witness :
    updateAvgValueSizeHint 11 22528 2000 = 1024 :=
  ((C10_grow_branch_cap 11 22528 2000 (by norm_num) (by norm_num)).2
    (by norm_num)).1

/-- C9: the default base operations fail with their specified error kinds
for every argument: binary bulk (de)serialization with
`MULTIPLE_STREAMS_REQUIRED`, numeric promotion with
`DATA_TYPE_CANNOT_BE_PROMOTED`, and the in-memory value-size query with
`LOGICAL_ERROR`; being pure error results, none produces any output or
modified state. -/
theorem C9_default_error_contracts (t : TypeState) (column column2 : Column)
    (istr : String) (offset limit limit2 : Nat) (hint : ℚ) :
    (∃ msg, serializeBinaryBulk t column offset limit
        = Except.error (ErrorCode.MULTIPLE_STREAMS_REQUIRED, msg))
    ∧ (∃ msg, deserializeBinaryBulk t column2 istr limit2 hint
        = Except.error (ErrorCode.MULTIPLE_STREAMS_REQUIRED, msg))
    ∧ (∃ msg, promoteNumericType t
        = Except.error (ErrorCode.DATA_TYPE_CANNOT_BE_PROMOTED, msg))
    ∧ (∃ msg, getSizeOfValueInMemory t
        = Except.error (ErrorCode.LOGICAL_ERROR, msg)) :=
  ⟨⟨_, rfl⟩, ⟨_, rfl⟩, ⟨_, rfl⟩, ⟨_, rfl⟩⟩

end IDataTypeSpec
